import Mathlib

/-!
Verification of the malachite consensus library against its specification.

The definitions below are shallow embeddings of the Rust source:
machine integers (u64, usize) become `Nat` with explicit overflow checks
where the source uses checked arithmetic, panics become `none` / `Except.error`,
and stateful handlers become explicit state-passing functions.
-/

/-- 2^64, the modulus of Rust's u64. -/
def U64_MOD : Nat := 2 ^ 64

/-- Embedding of Rust's u64::checked_mul: `some` of the product when it fits
in 64 bits, `none` on overflow. -/
def checkedMul (a b : Nat) : Option Nat :=
  if a * b < U64_MOD then some (a * b) else none

/-- Embedding of `ThresholdParam` from crates/common/src/threshold.rs:
a fraction given by numerator and denominator (both u64). -/
structure ThresholdParam where
  numerator : Nat
  denominator : Nat
deriving DecidableEq, Repr

/-- Embedding of `ThresholdParam::is_met` (crates/common/src/threshold.rs).
The source computes `weight.checked_mul(denominator)` and
`total.checked_mul(numerator)`, panicking (`.expect`) on overflow, and
compares with strict `>`. A panic is modelled as `none`. -/
def ThresholdParam.is_met (p : ThresholdParam) (weight total : Nat) : Option Bool :=
  match checkedMul weight p.denominator with
  | none => none
  | some lhs =>
    match checkedMul total p.numerator with
    | none => none
    | some rhs => some (decide (lhs > rhs))

/-- Embedding of `ThresholdParam::min_expected` (threshold.rs):
`total * numerator / denominator` with checked operations. -/
def ThresholdParam.min_expected (p : ThresholdParam) (total : Nat) : Option Nat :=
  match checkedMul total p.numerator with
  | none => none
  | some prod => if p.denominator = 0 then none else some (prod / p.denominator)

/-- The 2/3 quorum threshold constant (`one_third::QUORUM` in threshold.rs). -/
def quorumTwoThirds : ThresholdParam := ⟨2, 3⟩

/-- Embedding of `Validator` from crates/test/src/validator_set.rs:
an address, a public key and a voting power. Addresses and keys are
opaque equality-comparable values, modelled as naturals. -/
structure Validator where
  address : Nat
  public_key : Nat
  voting_power : Nat
deriving DecidableEq, Repr

/-- Helper for `Vec::dedup`: drop elements equal to the last kept element
`prev`; keep an element that differs and continue from it. -/
def dedupFrom (prev : Validator) : List Validator → List Validator
  | [] => []
  | b :: rest => if prev = b then dedupFrom prev rest else b :: dedupFrom b rest

/-- Embedding of Rust's `Vec::dedup`: removes consecutive elements that are
equal (in all fields), keeping the first of each run. -/
def vecDedup : List Validator → List Validator
  | [] => []
  | a :: rest => a :: dedupFrom a rest

/-- Embedding of `ValidatorSet::sort_validators` (validator_set.rs).
In the source the sort is commented out; the body only calls
`vals.dedup()`, so the list keeps its input order. -/
def sortValidators (vals : List Validator) : List Validator :=
  vecDedup vals

/-- Embedding of `ValidatorSet` (validator_set.rs): a list of validators. -/
structure ValidatorSet where
  validators : List Validator
deriving DecidableEq, Repr

/-- Embedding of `ValidatorSet::new`: collect, run `sort_validators`, then
assert non-emptiness (`none` models the assertion failure). -/
def ValidatorSet.new (vals : List Validator) : Option ValidatorSet :=
  let vals := sortValidators vals
  if vals.isEmpty then none else some ⟨vals⟩

/-- Embedding of `ValidatorSet::total_voting_power`: sum of the powers. -/
def ValidatorSet.total_voting_power (vs : ValidatorSet) : Nat :=
  (vs.validators.map (fun v => v.voting_power)).sum

/-- Embedding of `ValidatorSet::add`: push then `sort_validators`. -/
def ValidatorSet.add (vs : ValidatorSet) (v : Validator) : ValidatorSet :=
  ⟨sortValidators (vs.validators ++ [v])⟩

/-- Helper for `ValidatorSet::update`: set the voting power of the first
validator whose address matches (iter_mut().find in the source). -/
def updateFirst : List Validator → Validator → List Validator
  | [], _ => []
  | v :: rest, val =>
    if v.address = val.address then
      { v with voting_power := val.voting_power } :: rest
    else v :: updateFirst rest val

/-- Embedding of `ValidatorSet::update`: update the first matching entry,
then `sort_validators`. -/
def ValidatorSet.update (vs : ValidatorSet) (val : Validator) : ValidatorSet :=
  ⟨sortValidators (updateFirst vs.validators val)⟩

/-- Embedding of `ValidatorSet::remove`: retain entries whose address
differs, then `sort_validators`. -/
def ValidatorSet.remove (vs : ValidatorSet) (address : Nat) : ValidatorSet :=
  ⟨sortValidators (vs.validators.filter (fun v => v.address ≠ address))⟩

/-- Embedding of `ValidatorSet::get_by_address`: first entry in list order
with the given address. -/
def ValidatorSet.get_by_address (vs : ValidatorSet) (address : Nat) : Option Validator :=
  vs.validators.find? (fun v => v.address = address)

/-- Embedding of `ValidatorSet::get_by_index` (Vec::get). -/
def ValidatorSet.get_by_index (vs : ValidatorSet) (i : Nat) : Option Validator :=
  vs.validators.get? i

/-- Embedding of `ValidatorSet::count` (Vec::len). -/
def ValidatorSet.count (vs : ValidatorSet) : Nat :=
  vs.validators.length

/-- Modelled from the spec: the `Round` type of malachite-core-types is not
under src/; the spec describes it as a signed integer with a distinguished
`Nil` value, non-nil rounds starting at 0. -/
inductive Round where
  | nil : Round
  | val : Nat → Round
deriving DecidableEq, Repr

/-- Embedding of `MockContext::select_proposer`
(crates/starknet/p2p-types/src/context.rs). The source asserts a non-empty
set and a non-nil, non-negative round, computes
`(height as usize - 1 + round) % count` and indexes the set. Assertion
failures and the usize underflow of `height - 1` at height 0 (a panic in
debug builds) are modelled as `none`. -/
def select_proposer (vs : ValidatorSet) (height : Nat) (round : Round) : Option Validator :=
  if vs.count > 0 then
    match round with
    | Round.nil => none
    | Round.val r =>
      if height = 0 then none
      else vs.get_by_index ((height - 1 + r) % vs.count)
  else none

/-- A concrete validator with the smallest address of the fixtures. -/
def valA : Validator := ⟨1, 10, 5⟩

/-- A concrete validator whose address is larger than that of `valA`. -/
def valB : Validator := ⟨2, 20, 6⟩

/-- A concrete validator sharing the address of `valA` but differing in
public key and voting power. -/
def valDup : Validator := ⟨1, 99, 7⟩

/-- A concrete two-validator set, listed as [valA, valB]. -/
def setAB : ValidatorSet := ⟨[valA, valB]⟩

/-- Embedding of `ProposedValue` (crates/consensus/src/types.rs): height,
round, proposer address, value and validity verdict. -/
structure ProposedValue where
  height : Nat
  round : Round
  validator_address : Nat
  value : Nat
  validity : Bool
deriving DecidableEq, Repr

/-- Embedding of the height dispatch of `on_proposed_value`
(crates/consensus/src/handle/proposed_value.rs). The driver height is `H`
and `q` is the input queue. The source returns early for a lower height
(drop), for the next height (push onto the queue) and for any other
higher height (drop); `some` returns the queue after such an early return.
For the current height the handler continues into proposal processing,
outside this model, returned as `none`. -/
def on_proposed_value (H : Nat) (q : List ProposedValue) (pv : ProposedValue) :
    Option (List ProposedValue) :=
  if H > pv.height then
    some q
  else if H < pv.height then
    some (if H + 1 = pv.height then q ++ [pv] else q)
  else
    none

/-- A concrete proposed value at height 3 (below a driver height of 5). -/
def pvLow : ProposedValue := ⟨3, Round.val 0, 1, 42, true⟩

/-- A concrete proposed value at height 6 (next height after 5). -/
def pvNext : ProposedValue := ⟨6, Round.val 0, 1, 42, true⟩

/-- A concrete proposed value at height 9 (more than one above 5). -/
def pvHigh : ProposedValue := ⟨9, Round.val 0, 1, 42, true⟩

/-- Embedding of `TimeoutConfig` as used by `Timeouts`
(crates/actors/src/consensus.rs): base durations and per-kind deltas,
durations modelled as naturals. -/
structure TimeoutConfig where
  timeout_propose : Nat
  timeout_propose_delta : Nat
  timeout_prevote : Nat
  timeout_prevote_delta : Nat
  timeout_precommit : Nat
  timeout_precommit_delta : Nat
  timeout_commit : Nat
  timeout_step : Nat
deriving DecidableEq, Repr

/-- Embedding of `TimeoutKind` (propose, prevote, precommit, commit and the
two step time limits). -/
inductive TimeoutKind where
  | propose
  | prevote
  | precommit
  | commit
  | prevoteTimeLimit
  | precommitTimeLimit
deriving DecidableEq, Repr

/-- Embedding of `Timeouts::duration_for` (crates/actors/src/consensus.rs). -/
def duration_for (c : TimeoutConfig) (k : TimeoutKind) : Nat :=
  match k with
  | TimeoutKind.propose => c.timeout_propose
  | TimeoutKind.prevote => c.timeout_prevote
  | TimeoutKind.precommit => c.timeout_precommit
  | TimeoutKind.commit => c.timeout_commit
  | TimeoutKind.prevoteTimeLimit => c.timeout_step
  | TimeoutKind.precommitTimeLimit => c.timeout_step

/-- Embedding of `Timeouts::increase_timeout` (crates/actors/src/consensus.rs):
called once on each timeout elapse, it adds the kind's delta to the kind's
duration; Commit and the time limits are left untouched. -/
def increase_timeout (c : TimeoutConfig) (k : TimeoutKind) : TimeoutConfig :=
  match k with
  | TimeoutKind.propose =>
      { c with timeout_propose := c.timeout_propose + c.timeout_propose_delta }
  | TimeoutKind.prevote =>
      { c with timeout_prevote := c.timeout_prevote + c.timeout_prevote_delta }
  | TimeoutKind.precommit =>
      { c with timeout_precommit := c.timeout_precommit + c.timeout_precommit_delta }
  | TimeoutKind.commit => c
  | TimeoutKind.prevoteTimeLimit => c
  | TimeoutKind.precommitTimeLimit => c

/-- The configured delta for a timeout kind: the per-round increment for
propose, prevote and precommit, and zero for the kinds that never grow. -/
def delta_for (c : TimeoutConfig) (k : TimeoutKind) : Nat :=
  match k with
  | TimeoutKind.propose => c.timeout_propose_delta
  | TimeoutKind.prevote => c.timeout_prevote_delta
  | TimeoutKind.precommit => c.timeout_precommit_delta
  | TimeoutKind.commit => 0
  | TimeoutKind.prevoteTimeLimit => 0
  | TimeoutKind.precommitTimeLimit => 0

/-- A concrete timeout configuration used by the witnesses. -/
def cfg0 : TimeoutConfig := ⟨100, 7, 200, 11, 300, 13, 400, 500⟩

/-- Modelled from the spec: the vote kind, `kind ∈ \x7bPrevote, Precommit\x7d`
(the `VoteType` enum of malachite-core-types is not under src/). -/
inductive VoteType where
  | prevote
  | precommit
deriving DecidableEq, Repr

/-- Big-endian byte string of a u64 (`u64::to_be_bytes`). -/
def u64BeBytes (n : Nat) : List Nat :=
  (List.range 8).map (fun i => n / 2 ^ (8 * (7 - i)) % 256)

/-- Embedding of `BaseVote` (examples/loopback/src/context/vote.rs):
vote type, height, value id, round, voter and optional extension. -/
structure BaseVote where
  vote_type : VoteType
  height : Nat
  value_id : Option Nat
  round : Round
  voter : Nat
  extension : Option Nat
deriving DecidableEq, Repr

/-- Embedding of `BaseVote::to_bytes` (vote.rs): serializes only the
height, as the big-endian bytes of `height.0`. -/
def BaseVote.to_bytes (v : BaseVote) : List Nat :=
  u64BeBytes v.height

/-- Modelled from the spec: Ed25519 signing (the `signature` crate backing
`PrivateKey::sign` is external). Per RFC 8032 it is a deterministic
function of the signing key and the message bytes, represented here
abstractly as that pair. -/
def ed25519Sign (sk : Nat) (msg : List Nat) : Nat × List Nat :=
  (sk, msg)

/-- Embedding of `BaseContext` as used by `sign_vote`
(examples/loopback/src/context.rs): holds the node's private key. -/
structure BaseContext where
  private_key : Nat
deriving DecidableEq, Repr

/-- A signed loopback vote: the vote together with its signature
(`SignedMessage::new`). -/
structure SignedBaseVote where
  vote : BaseVote
  signature : Nat × List Nat
deriving DecidableEq, Repr

/-- Embedding of `BaseContext::sign_vote` (context.rs): signs
`vote.to_bytes()` with the node's private key. -/
def BaseContext.sign_vote (ctx : BaseContext) (v : BaseVote) : SignedBaseVote :=
  ⟨v, ed25519Sign ctx.private_key v.to_bytes⟩

/-- A concrete prevote at height 4 for value 1 in round 0 by voter 1. -/
def bvote1 : BaseVote := ⟨VoteType.prevote, 4, some 1, Round.val 0, 1, none⟩

/-- A concrete precommit at the same height 4, differing from `bvote1` in
vote type, round, value id and voter. -/
def bvote2 : BaseVote := ⟨VoteType.precommit, 4, some 9, Round.val 7, 2, none⟩

/-- Modelled from the spec: the starknet p2p `Vote`
(`(kind, height, round, value_id, voter_address)`, value id nil or a
digest); the p2p-types vote module is not under src/. -/
structure Vote where
  vote_type : VoteType
  height : Nat
  round : Nat
  value_id : Option Nat
  voter : Nat
deriving DecidableEq, Repr

/-- Modelled from the spec: the starknet p2p `Proposal`
(`(height, round, value, valid_round, proposer_address)`); the p2p-types
proposal module is not under src/. -/
structure Proposal where
  height : Nat
  round : Nat
  value : Nat
  valid_round : Option Nat
  proposer : Nat
deriving DecidableEq, Repr

/-- A signed vote: `SignedMessage⟨Vote⟩ = (message, signature)`. -/
structure SignedVote where
  vote : Vote
  signature : Nat
deriving DecidableEq, Repr

/-- A signed proposal: `SignedMessage⟨Proposal⟩ = (message, signature)`. -/
structure SignedProposal where
  proposal : Proposal
  signature : Nat
deriving DecidableEq, Repr

/-- Embedding of `SignedConsensusMsg` (crates/consensus/src/types.rs):
either a signed vote or a signed proposal. -/
inductive SignedConsensusMsg where
  | vote : SignedVote → SignedConsensusMsg
  | proposal : SignedProposal → SignedConsensusMsg
deriving DecidableEq, Repr

/-- Modelled from the spec: the protobuf form of a vote, mirroring the
fields of `Vote` with the kind as a numeric enum tag. -/
structure ProtoVote where
  vote_type : Nat
  height : Nat
  round : Nat
  value_id : Option Nat
  voter : Nat
deriving DecidableEq, Repr

/-- Modelled from the spec: the protobuf form of a proposal. -/
structure ProtoProposal where
  height : Nat
  round : Nat
  value : Nat
  valid_round : Option Nat
  proposer : Nat
deriving DecidableEq, Repr

/-- The `Messages` oneof of the protobuf `ConsensusMessage`. -/
inductive Messages where
  | vote : ProtoVote → Messages
  | proposal : ProtoProposal → Messages
deriving DecidableEq, Repr

/-- The protobuf `ConsensusMessage` as used by codec.rs: an optional
oneof payload and an optional signature. -/
structure ConsensusMessage where
  messages : Option Messages
  signature : Option Nat
deriving DecidableEq, Repr

/-- Numeric tag of a vote type in the protobuf encoding. -/
def VoteType.toTag : VoteType → Nat
  | VoteType.prevote => 0
  | VoteType.precommit => 1

/-- Modelled from the spec: `Vote::to_proto`, mapping each field across. -/
def Vote.to_proto (v : Vote) : ProtoVote :=
  ⟨v.vote_type.toTag, v.height, v.round, v.value_id, v.voter⟩

/-- Modelled from the spec: `Vote::from_proto`; an unknown vote-type tag
is a decoding error. -/
def Vote.from_proto (p : ProtoVote) : Except String Vote :=
  match p.vote_type with
  | 0 => Except.ok ⟨VoteType.prevote, p.height, p.round, p.value_id, p.voter⟩
  | 1 => Except.ok ⟨VoteType.precommit, p.height, p.round, p.value_id, p.voter⟩
  | _ => Except.error "unknown vote type"

/-- Modelled from the spec: `Proposal::to_proto`. -/
def Proposal.to_proto (p : Proposal) : ProtoProposal :=
  ⟨p.height, p.round, p.value, p.valid_round, p.proposer⟩

/-- Modelled from the spec: `Proposal::from_proto`. -/
def Proposal.from_proto (p : ProtoProposal) : Except String Proposal :=
  Except.ok ⟨p.height, p.round, p.value, p.valid_round, p.proposer⟩

/-- Wire encoding of an optional field: a presence tag then the value. -/
def encodeOptW : Option Nat → List Nat
  | none => [0]
  | some n => [1, n]

/-- Wire decoding of an optional field: the decoded option and the rest. -/
def decodeOptW : List Nat → Option (Option Nat × List Nat)
  | 0 :: rest => some (none, rest)
  | 1 :: n :: rest => some (some n, rest)
  | _ => none

/-- Modelled from the spec: prost encoding of a vote payload. -/
def encodeVoteW (v : ProtoVote) : List Nat :=
  v.vote_type :: v.height :: v.round :: (encodeOptW v.value_id ++ [v.voter])

/-- Modelled from the spec: prost decoding of a vote payload. -/
def decodeVoteW : List Nat → Option (ProtoVote × List Nat)
  | t :: h :: r :: rest =>
    match decodeOptW rest with
    | some (vid, voter :: rest2) => some (⟨t, h, r, vid, voter⟩, rest2)
    | _ => none
  | _ => none

/-- Modelled from the spec: prost encoding of a proposal payload. -/
def encodeProposalW (p : ProtoProposal) : List Nat :=
  p.height :: p.round :: p.value :: (encodeOptW p.valid_round ++ [p.proposer])

/-- Modelled from the spec: prost decoding of a proposal payload. -/
def decodeProposalW : List Nat → Option (ProtoProposal × List Nat)
  | h :: r :: v :: rest =>
    match decodeOptW rest with
    | some (vr, proposer :: rest2) => some (⟨h, r, v, vr, proposer⟩, rest2)
    | _ => none
  | _ => none

/-- Modelled from the spec: `prost::Message::encode_to_vec` on a
`ConsensusMessage`: the optional oneof (tagged by variant) followed by the
optional signature. -/
def encodeCMW (m : ConsensusMessage) : List Nat :=
  (match m.messages with
   | none => [0]
   | some (Messages.vote v) => 1 :: 0 :: encodeVoteW v
   | some (Messages.proposal p) => 1 :: 1 :: encodeProposalW p) ++
  encodeOptW m.signature

/-- Modelled from the spec: `ConsensusMessage::decode`, the inverse parse;
trailing bytes or malformed fields are a decoding error (`none`). -/
def decodeCMW (bytes : List Nat) : Option ConsensusMessage :=
  let step1 : Option (Option Messages × List Nat) :=
    match bytes with
    | 0 :: rest => some (none, rest)
    | 1 :: 0 :: rest =>
      match decodeVoteW rest with
      | some (v, rest2) => some (some (Messages.vote v), rest2)
      | none => none
    | 1 :: 1 :: rest =>
      match decodeProposalW rest with
      | some (p, rest2) => some (some (Messages.proposal p), rest2)
      | none => none
    | _ => none
  match step1 with
  | some (msgs, rest) =>
    match decodeOptW rest with
    | some (sig, []) => some ⟨msgs, sig⟩
    | _ => none
  | none => none

/-- Embedding of `ProtobufCodec::encode_msg`
(crates/starknet/app/src/codec.rs): wrap the vote or proposal and its
signature into a `ConsensusMessage` with both fields present, then encode. -/
def encode_msg (msg : SignedConsensusMsg) : Except String (List Nat) :=
  match msg with
  | SignedConsensusMsg.vote v =>
    Except.ok (encodeCMW ⟨some (Messages.vote v.vote.to_proto), some v.signature⟩)
  | SignedConsensusMsg.proposal p =>
    Except.ok (encodeCMW ⟨some (Messages.proposal p.proposal.to_proto), some p.signature⟩)

/-- Embedding of `ProtobufCodec::decode_msg` (codec.rs): decode the
`ConsensusMessage`, fail if the signature or the payload field is missing,
then convert the payload with `from_proto` and reattach the signature. -/
def decode_msg (bytes : List Nat) : Except String SignedConsensusMsg :=
  match decodeCMW bytes with
  | none => Except.error "malformed message"
  | some proto =>
    match proto.signature with
    | none => Except.error "missing field signature"
    | some sig =>
      match proto.messages with
      | none => Except.error "missing field messages"
      | some (Messages.vote pv) =>
        (Vote.from_proto pv).map (fun v => SignedConsensusMsg.vote ⟨v, sig⟩)
      | some (Messages.proposal pp) =>
        (Proposal.from_proto pp).map (fun p => SignedConsensusMsg.proposal ⟨p, sig⟩)

/-- C1: when neither cross-product overflows, `is_met w t` returns exactly
`w * denominator > t * numerator`, and at the boundary weight
`numerator * t / denominator` it returns `false` (strict inequality). -/
theorem ThresholdParam.is_met_strict_cross_mul (p : ThresholdParam) (w t : Nat)
    (hw : w * p.denominator < U64_MOD) (ht : t * p.numerator < U64_MOD) :
    p.is_met w t = some (decide (w * p.denominator > t * p.numerator))
    ∧ p.is_met (p.numerator * t / p.denominator) t = some false := by
  constructor
  · simp [ThresholdParam.is_met, checkedMul, hw, ht]
  · have hle : p.numerator * t / p.denominator * p.denominator ≤ p.numerator * t :=
      Nat.div_mul_le_self _ _
    have hfit : p.numerator * t / p.denominator * p.denominator < U64_MOD := by
      calc p.numerator * t / p.denominator * p.denominator
          ≤ p.numerator * t := hle
        _ = t * p.numerator := Nat.mul_comm _ _
        _ < U64_MOD := ht
    have hnot : ¬ (p.numerator * t / p.denominator * p.denominator > t * p.numerator) := by
      rw [Nat.mul_comm t p.numerator]
      exact Nat.not_lt.mpr hle
    simp [ThresholdParam.is_met, checkedMul, hfit, ht, hnot]

/-- Witness for C1 at the 2/3 quorum with weight 7 of total 10 (met) and
the exact boundary weight 2·10/3 = 6 (not met). -/
theorem ThresholdParam.is_met_strict_cross_mul_witness :
    quorumTwoThirds.is_met 7 10 = some (decide (7 * 3 > 10 * 2))
    ∧ quorumTwoThirds.is_met (2 * 10 / 3) 10 = some false :=
  ThresholdParam.is_met_strict_cross_mul quorumTwoThirds 7 10 (by decide) (by decide)

/-- C4: if either cross-product overflows u64, `is_met` panics
(returns `none`) instead of returning a boolean computed from a wrapped
product. -/
theorem ThresholdParam.is_met_overflow_panics (p : ThresholdParam) (w t : Nat)
    (h : U64_MOD ≤ w * p.denominator ∨ U64_MOD ≤ t * p.numerator) :
    p.is_met w t = none := by
  unfold ThresholdParam.is_met checkedMul
  rcases h with h1 | h2
  · simp [Nat.not_lt.mpr h1]
  · by_cases hl : w * p.denominator < U64_MOD
    · simp [hl, Nat.not_lt.mpr h2]
    · simp [hl]

/-- Witness for C4: with total u64::MAX and the 2/3 threshold, the
right-hand product overflows, so the call panics. -/
theorem ThresholdParam.is_met_overflow_panics_witness :
    quorumTwoThirds.is_met 1 (2 ^ 64 - 1) = none :=
  ThresholdParam.is_met_overflow_panics quorumTwoThirds 1 (2 ^ 64 - 1)
    (Or.inr (by decide))

/-- C2 (divergence witness): `ValidatorSet::new` does not order the set by
address. With `valA.address < valB.address`, building from `[valB, valA]`
keeps the input order, so the same validators presented in different orders
yield different lists; `sort_validators` only deduplicates because the sort
in its body is commented out, contradicting the doc comments of the struct
and of `sort_validators` itself. -/
theorem validatorSet_new_unsorted :
    ValidatorSet.new [valB, valA] = some ⟨[valB, valA]⟩
    ∧ ValidatorSet.new [valB, valA] ≠ ValidatorSet.new [valA, valB]
    ∧ valA.address < valB.address := by decide

/-- C10: a `new` then `add` sequence produces a set holding two distinct
entries with the same address (deduplication only removes adjacent entries
equal in all fields); in that state `total_voting_power` sums the powers of
both entries and `get_by_address` returns the first matching entry in list
order. -/
theorem validatorSet_duplicate_address :
    ValidatorSet.new [valA] = some ⟨[valA]⟩
    ∧ (ValidatorSet.mk [valA]).add valDup = ⟨[valA, valDup]⟩
    ∧ valA.address = valDup.address
    ∧ valA ≠ valDup
    ∧ ((ValidatorSet.mk [valA]).add valDup).total_voting_power
        = valA.voting_power + valDup.voting_power
    ∧ ((ValidatorSet.mk [valA]).add valDup).get_by_address valA.address
        = some valA := by decide

/-- C3 counterexample: at height 1, round 0, on a two-validator set, the
code selects the validator at index (1 - 1 + 0) mod 2 = 0, not at index
(1 + 0) mod 2 = 1 as the claim states. -/
theorem select_proposer_claim_counterexample :
    select_proposer setAB 1 (Round.val 0) = some valA
    ∧ setAB.get_by_index ((1 + 0) % setAB.count) = some valB
    ∧ valA ≠ valB := by decide

/-- C3 (amended): for every non-empty validator set, height h ≥ 1 and
non-nil round r, `select_proposer` returns the validator at index
(h - 1 + r) mod count, and that index is in bounds; as a function it is
deterministic in its arguments. -/
theorem select_proposer_shifted_round_robin (vs : ValidatorSet) (h r : Nat)
    (hvs : 0 < vs.count) (hh : 1 ≤ h) :
    select_proposer vs h (Round.val r) = vs.get_by_index ((h - 1 + r) % vs.count)
    ∧ (h - 1 + r) % vs.count < vs.count := by
  have hne : h ≠ 0 := Nat.one_le_iff_ne_zero.mp hh
  refine ⟨?_, Nat.mod_lt _ hvs⟩
  simp [select_proposer, hvs, hne]

/-- Witness for the amended C3 at height 2, round 1, on the two-validator
set: index (2 - 1 + 1) mod 2 = 0. -/
theorem select_proposer_shifted_round_robin_witness :
    select_proposer setAB 2 (Round.val 1) = setAB.get_by_index ((2 - 1 + 1) % setAB.count)
    ∧ (2 - 1 + 1) % setAB.count < setAB.count :=
  select_proposer_shifted_round_robin setAB 2 1 (by decide) (by decide)

/-- C9: `select_proposer` is total (returns a validator) for every
non-empty set, non-nil round and height h ≥ 1, and at height 0 the
index computation `height - 1 + round` underflows usize, modelled as a
panic (`none`). -/
theorem select_proposer_total_requires_positive_height (vs : ValidatorSet) (h r : Nat)
    (hvs : 0 < vs.count) (hh : 1 ≤ h) :
    (∃ v, select_proposer vs h (Round.val r) = some v)
    ∧ select_proposer vs 0 (Round.val r) = none := by
  have hne : h ≠ 0 := Nat.one_le_iff_ne_zero.mp hh
  constructor
  · have hidx : (h - 1 + r) % vs.count < vs.count := Nat.mod_lt _ hvs
    refine ⟨vs.validators.get ⟨(h - 1 + r) % vs.count, hidx⟩, ?_⟩
    simp [select_proposer, hvs, hne, ValidatorSet.get_by_index,
      List.get?_eq_get hidx]
  · simp [select_proposer, hvs]

/-- Witness for C9 at height 1, round 0, on the two-validator set. -/
theorem select_proposer_total_requires_positive_height_witness :
    (∃ v, select_proposer setAB 1 (Round.val 0) = some v)
    ∧ select_proposer setAB 0 (Round.val 0) = none :=
  select_proposer_total_requires_positive_height setAB 1 0 (by decide) (by decide)

/-- C5: a proposed value below the driver height is dropped with the state
unchanged; one at exactly the next height is pushed onto the input queue;
one above the next height is dropped without being queued. -/
theorem on_proposed_value_routing (H : Nat) (q : List ProposedValue) (pv : ProposedValue) :
    (pv.height < H → on_proposed_value H q pv = some q)
    ∧ (pv.height = H + 1 → on_proposed_value H q pv = some (q ++ [pv]))
    ∧ (H + 1 < pv.height → on_proposed_value H q pv = some q) := by
  refine ⟨fun hlt => ?_, fun heq => ?_, fun hgt => ?_⟩
  · simp [on_proposed_value, hlt]
  · have hlt : H < pv.height := by omega
    simp [on_proposed_value, heq, Nat.lt_asymm hlt, hlt]
  · have hlt : H < pv.height := by omega
    have hne : H + 1 ≠ pv.height := by omega
    simp [on_proposed_value, Nat.lt_asymm hlt, hlt, hne]

/-- Witness for C5 at driver height 5 with an empty queue: height 3 is
dropped, height 6 is queued, height 9 is dropped. -/
theorem on_proposed_value_routing_witness :
    on_proposed_value 5 [] pvLow = some []
    ∧ on_proposed_value 5 [] pvNext = some ([] ++ [pvNext])
    ∧ on_proposed_value 5 [] pvHigh = some [] :=
  ⟨(on_proposed_value_routing 5 [] pvLow).1 (by decide),
   (on_proposed_value_routing 5 [] pvNext).2.1 (by decide),
   (on_proposed_value_routing 5 [] pvHigh).2.2 (by decide)⟩

/-- The configured deltas are never modified by an elapse. -/
theorem delta_for_increase (c : TimeoutConfig) (k k2 : TimeoutKind) :
    delta_for (increase_timeout c k2) k = delta_for c k := by
  cases k <;> cases k2 <;> rfl

/-- The configured deltas are unchanged by any number of elapses. -/
theorem delta_for_iterate (c : TimeoutConfig) (k k2 : TimeoutKind) (n : Nat) :
    delta_for ((fun cfg => increase_timeout cfg k2)^[n] c) k = delta_for c k := by
  induction n generalizing c with
  | zero => rfl
  | succ n ih => rw [Function.iterate_succ_apply, ih, delta_for_increase]

/-- One elapse of a growable kind adds exactly its delta to its duration. -/
theorem duration_for_increase_self (c : TimeoutConfig) (k : TimeoutKind)
    (hk : k = TimeoutKind.propose ∨ k = TimeoutKind.prevote ∨ k = TimeoutKind.precommit) :
    duration_for (increase_timeout c k) k = duration_for c k + delta_for c k := by
  rcases hk with h | h | h <;> subst h <;> rfl

/-- One elapse of any kind leaves the durations of all other kinds alone. -/
theorem duration_for_increase_other (c : TimeoutConfig) (k k2 : TimeoutKind)
    (h : k2 ≠ k) :
    duration_for (increase_timeout c k) k2 = duration_for c k2 := by
  cases k <;> cases k2 <;> first | rfl | exact absurd rfl h

/-- C7: after n elapses of a Propose, Prevote or Precommit timeout the
stored duration of that kind is its base plus n times its configured delta,
every other kind's duration is unchanged, and the Commit and time-limit
kinds are never grown by an elapse. -/
theorem timeouts_linear_increase (c : TimeoutConfig) (k : TimeoutKind) (n : Nat)
    (hk : k = TimeoutKind.propose ∨ k = TimeoutKind.prevote ∨ k = TimeoutKind.precommit) :
    duration_for ((fun cfg => increase_timeout cfg k)^[n] c) k
      = duration_for c k + n * delta_for c k
    ∧ (∀ k2, k2 ≠ k →
        duration_for ((fun cfg => increase_timeout cfg k)^[n] c) k2 = duration_for c k2)
    ∧ increase_timeout c TimeoutKind.commit = c
    ∧ increase_timeout c TimeoutKind.prevoteTimeLimit = c
    ∧ increase_timeout c TimeoutKind.precommitTimeLimit = c := by
  refine ⟨?_, ?_, rfl, rfl, rfl⟩
  · induction n with
    | zero => simp
    | succ n ih =>
      rw [Function.iterate_succ_apply', duration_for_increase_self _ _ hk, ih,
        delta_for_iterate]
      ring
  · intro k2 h2
    induction n with
    | zero => rfl
    | succ n ih =>
      rw [Function.iterate_succ_apply', duration_for_increase_other _ _ _ h2, ih]

/-- Witness for C7: three elapses of the Prevote timeout on the concrete
configuration grow its duration to 200 + 3·11 and leave the others as
configured. -/
theorem timeouts_linear_increase_witness :
    duration_for ((fun cfg => increase_timeout cfg TimeoutKind.prevote)^[3] cfg0)
        TimeoutKind.prevote
      = duration_for cfg0 TimeoutKind.prevote + 3 * delta_for cfg0 TimeoutKind.prevote
    ∧ (∀ k2, k2 ≠ TimeoutKind.prevote →
        duration_for ((fun cfg => increase_timeout cfg TimeoutKind.prevote)^[3] cfg0) k2
          = duration_for cfg0 k2)
    ∧ increase_timeout cfg0 TimeoutKind.commit = cfg0
    ∧ increase_timeout cfg0 TimeoutKind.prevoteTimeLimit = cfg0
    ∧ increase_timeout cfg0 TimeoutKind.precommitTimeLimit = cfg0 :=
  timeouts_linear_increase cfg0 TimeoutKind.prevote 3 (Or.inr (Or.inl rfl))

/-- C8: the signed bytes of a `BaseVote` depend only on its height, so two
votes with equal heights get identical signed bytes and identical
signatures from `sign_vote`, whatever their vote type, round, value id or
voter. -/
theorem sign_vote_binds_only_height (ctx : BaseContext) (v1 v2 : BaseVote)
    (h : v1.height = v2.height) :
    v1.to_bytes = v2.to_bytes
    ∧ (ctx.sign_vote v1).signature = (ctx.sign_vote v2).signature := by
  have hb : v1.to_bytes = v2.to_bytes := by
    simp [BaseVote.to_bytes, h]
  exact ⟨hb, by simp [BaseContext.sign_vote, hb]⟩

/-- Witness for C8: a prevote and a precommit at height 4 differing in
vote type, round, value id and voter sign identically under key 5. -/
theorem sign_vote_binds_only_height_witness :
    bvote1 ≠ bvote2
    ∧ (bvote1.to_bytes = bvote2.to_bytes
       ∧ ((BaseContext.mk 5).sign_vote bvote1).signature
           = ((BaseContext.mk 5).sign_vote bvote2).signature) :=
  ⟨by decide, sign_vote_binds_only_height ⟨5⟩ bvote1 bvote2 (by decide)⟩

/-- C6: encoding a signed vote or signed proposal with the codec and then
decoding the bytes returns exactly the original message. -/
theorem codec_roundtrip (m : SignedConsensusMsg) :
    (encode_msg m).bind decode_msg = Except.ok m := by
  rcases m with ⟨⟨t, h, r, vid, voter⟩, sig⟩ | ⟨⟨h, r, v, vr, proposer⟩, sig⟩
  · cases t <;> cases vid <;> rfl
  · cases vr <;> rfl
